import Mathlib

/-!
Shallow embedding of the Gomoku rules engine from `gomoku_bootcamp.py`.

The board is a list of rows of `Int` cell values (0 = empty, 1 = player one,
2 = player two), exactly as the Python code uses a list of lists of ints.
Coordinates are `Int` (Python ints); scores are `ℚ` (the Python float scores
-1.0, -10.0, 0.0, 1.0, 100.0 are all exactly representable).
-/

namespace Gomoku

/-- The five move outcomes distinguished by `verify_score`, one per return
branch of the Python function (after successful coordinate extraction). -/
inductive Outcome where
  | OutOfBounds
  | CellOccupied
  | Win
  | Draw
  | Continue
  deriving DecidableEq, Repr

/-- The `identity` dictionary threaded through `verify_score`: the board,
the current player, and the terminal-state bookkeeping.  A missing
`winner` key in the Python dict is modelled as `none`. -/
structure GameState where
  board : List (List Int)
  current_player : Int
  game_over : Bool := false
  winner : Option Int := none
  deriving DecidableEq, Repr

/-- Read `board[r][c]`; out-of-range reads return 0 (the code only reads
inside bounds it has checked, or inside `cellOk` bounds guards). -/
def getCell (board : List (List Int)) (r c : Nat) : Int :=
  (board.getD r []).getD c 0

/-- Write `board[r][c] = v` (on a copy, as `verify_score` deep-copies first). -/
def setCell (board : List (List Int)) (r c : Nat) (v : Int) : List (List Int) :=
  board.set r ((board.getD r []).set c v)

/-- The data-model invariant that the board is a genuine square grid:
every row has length equal to the number of rows. -/
def SquareBoard (board : List (List Int)) : Prop :=
  ∀ row ∈ board, row.length = board.length

instance (board : List (List Int)) : Decidable (SquareBoard board) :=
  List.decidableBAll _ board

/-- The condition of the extension loops in `_check_win`:
`0 <= nr < board_size and 0 <= nc < board_size and board[nr][nc] == player`. -/
def cellOk (board : List (List Int)) (player : Int) (board_size : Nat)
    (nr nc : Int) : Bool :=
  decide (0 ≤ nr ∧ nr < (board_size : Int) ∧ 0 ≤ nc ∧ nc < (board_size : Int) ∧
    getCell board nr.toNat nc.toNat = player)

/-- One extension loop of `_check_win` (`for i in range(1, 5): ... else break`),
counting matching cells at steps `i, i+1, ...` while they stay in bounds and
hold `player`, for at most `steps` further steps. -/
def countDirGo (board : List (List Int)) (player : Int) (board_size : Nat)
    (r c dr dc : Int) : Nat → Int → Nat
  | 0, _ => 0
  | steps + 1, i =>
    if cellOk board player board_size (r + dr * i) (c + dc * i) then
      1 + countDirGo board player board_size r c dr dc steps (i + 1)
    else 0

/-- The number of contiguous matching cells found by one four-step
extension loop of `_check_win`, starting at step 1. -/
def countDir (board : List (List Int)) (player : Int) (board_size : Nat)
    (r c dr dc : Int) : Nat :=
  countDirGo board player board_size r c dr dc 4 1

/-- The four direction vectors of `_check_win`: horizontal, vertical,
main diagonal, anti-diagonal. -/
def directions : List (Int × Int) := [(0, 1), (1, 0), (1, 1), (1, -1)]

/-- `_check_win(board, player, r, c, board_size)`: for each direction,
1 (the placed stone) plus the forward count plus the backward count;
win iff some direction totals at least 5. -/
def check_win (board : List (List Int)) (player : Int) (r c : Int)
    (board_size : Nat) : Bool :=
  directions.any fun d =>
    decide (5 ≤ 1 + countDir board player board_size r c d.1 d.2
      + countDir board player board_size r c (-d.1) (-d.2))

/-- The draw test of `verify_score`:
`all(cell != 0 for row in new_board for cell in row)`. -/
def isFull (board : List (List Int)) : Bool :=
  board.all fun row => row.all fun cell => decide (cell ≠ 0)

/-- The core move engine: the part of `verify_score` after coordinate
extraction, with the outcome tag of the taken branch made explicit.
Returns (outcome, score, new identity). -/
def applyMove (state : GameState) (row col : Int) : Outcome × ℚ × GameState :=
  let board := state.board
  let current_player := state.current_player
  let board_size := board.length
  if ¬ (0 ≤ row ∧ row < (board_size : Int) ∧ 0 ≤ col ∧ col < (board_size : Int)) then
    (Outcome.OutOfBounds, -10, state)
  else if getCell board row.toNat col.toNat ≠ 0 then
    (Outcome.CellOccupied, -10, state)
  else
    let new_board := setCell board row.toNat col.toNat current_player
    if check_win new_board current_player row col board_size then
      (Outcome.Win, 100, ⟨new_board, current_player, true, some current_player⟩)
    else if isFull new_board then
      (Outcome.Draw, 0, ⟨new_board, current_player, true, none⟩)
    else
      (Outcome.Continue, 1, ⟨new_board, 3 - current_player, false, none⟩)

/-- The score attached to each outcome in `verify_score`'s return statements. -/
def scoreOf : Outcome → ℚ
  | Outcome.OutOfBounds => -10
  | Outcome.CellOccupied => -10
  | Outcome.Win => 100
  | Outcome.Draw => 0
  | Outcome.Continue => 1

/-- A character the Python regex class `\d` accepts on the ASCII range:
a decimal digit. -/
def isPyDigit (ch : Char) : Bool := ch.isDigit

/-- A character the Python regex class `\s` accepts on the ASCII range:
space, tab, newline, carriage return, vertical tab, form feed. -/
def isPySpace (ch : Char) : Bool :=
  ch = ' ' || ch = '\t' || ch = '\n' || ch = '\r' || ch = '\x0b' || ch = '\x0c'

/-- `int(...)` on a nonempty digit group: decimal value of the digit list. -/
def digitsToNat (ds : List Char) : Nat :=
  ds.foldl (fun acc ch => 10 * acc + (ch.toNat - '0'.toNat)) 0

/-- Match the pattern `\((\d+),\s*(\d+)\)` anchored at the head of the
character list, returning the two captured groups as numbers.  The regex's
greedy `\d+` and `\s*` have maximal-munch semantics here: backtracking to a
shorter group can never make the required following literal match. -/
def matchPairAt (cs : List Char) : Option (Nat × Nat) :=
  match cs with
  | '(' :: rest =>
    match rest.span isPyDigit with
    | (d1, rest1) =>
      if d1.isEmpty then none else
      match rest1 with
      | ',' :: rest2 =>
        match (rest2.dropWhile isPySpace).span isPyDigit with
        | (d2, rest3) =>
          if d2.isEmpty then none else
          match rest3 with
          | ')' :: _ => some (digitsToNat d1, digitsToNat d2)
          | _ => none
      | _ => none
  | _ => none

/-- `re.search(r'\((\d+),\s*(\d+)\)', response)`: try the pattern at every
start position from left to right, returning the first match's groups. -/
def searchCoords : List Char → Option (Nat × Nat)
  | [] => none
  | ch :: cs =>
    match matchPairAt (ch :: cs) with
    | some p => some p
    | none => searchCoords cs

/-- `verify_score(response, identity)`: extract a coordinate pair from the
response text; on failure score -1.0 with the state unchanged, otherwise run
the move engine.  (The Python `except ValueError` branch is unreachable:
`int` always succeeds on a nonempty digit group.) -/
def verify_score (response : List Char) (state : GameState) : ℚ × GameState :=
  match searchCoords response with
  | none => (-1, state)
  | some (row, col) =>
    match applyMove state (row : Int) (col : Int) with
    | (_, score, newState) => (score, newState)

/-! ### Basic lemmas about cell access and update -/

lemma getD_set {α : Type} (l : List α) (i j : Nat) (a d : α) :
    (l.set i a).getD j d = if i = j ∧ i < l.length then a else l.getD j d := by
  rw [List.getD_eq_getElem?_getD, List.getElem?_set]
  by_cases h : i = j
  · subst h
    by_cases hl : i < l.length
    · simp [hl]
    · simp [hl, List.getD_eq_getElem?_getD, List.getElem?_eq_none (Nat.le_of_not_lt hl)]
  · simp [h, List.getD_eq_getElem?_getD]

lemma getCell_setCell (b : List (List Int)) (r c r' c' : Nat) (v : Int) :
    getCell (setCell b r c v) r' c' =
      if r = r' ∧ r < b.length ∧ c = c' ∧ c < (b.getD r []).length then v
      else getCell b r' c' := by
  unfold getCell setCell
  rw [getD_set]
  by_cases hr : r = r' ∧ r < b.length
  · obtain ⟨hr1, hr2⟩ := hr
    subst hr1
    rw [if_pos ⟨rfl, hr2⟩, getD_set]
    by_cases hc : c = c' ∧ c < (b.getD r []).length
    · rw [if_pos hc, if_pos ⟨rfl, hr2, hc.1, hc.2⟩]
    · rw [if_neg hc, if_neg]
      rintro ⟨-, -, hc1, hc2⟩
      exact hc ⟨hc1, hc2⟩
  · rw [if_neg hr, if_neg]
    rintro ⟨h1, h2, -, -⟩
    exact hr ⟨h1, h2⟩

lemma getCell_setCell_ne (b : List (List Int)) (r c r' c' : Nat) (v : Int)
    (h : ¬ (r = r' ∧ c = c')) :
    getCell (setCell b r c v) r' c' = getCell b r' c' := by
  rw [getCell_setCell, if_neg]
  rintro ⟨h1, -, h3, -⟩
  exact h ⟨h1, h3⟩

lemma getCell_setCell_self (b : List (List Int)) (r c : Nat) (v : Int)
    (hWF : SquareBoard b) (hr : r < b.length) (hc : c < b.length) :
    getCell (setCell b r c v) r c = v := by
  have hget : b.getD r [] = b[r] := by
    rw [List.getD_eq_getElem?_getD, List.getElem?_eq_getElem hr, Option.getD_some]
  have hrow : (b.getD r []).length = b.length := by
    rw [hget]
    exact hWF _ (List.getElem_mem hr)
  rw [getCell_setCell, if_pos ⟨rfl, hr, rfl, by rw [hrow]; exact hc⟩]

lemma getCell_setCell_cases (b : List (List Int)) (r c r' c' : Nat) (v : Int) :
    getCell (setCell b r c v) r' c' = getCell b r' c' ∨
      getCell (setCell b r c v) r' c' = v := by
  rw [getCell_setCell]
  split_ifs with h
  · exact Or.inr rfl
  · exact Or.inl rfl

lemma length_setCell (b : List (List Int)) (r c : Nat) (v : Int) :
    (setCell b r c v).length = b.length := by
  unfold setCell
  exact List.length_set b _ _

/-! ### Lemmas about the extension-loop count -/

/-- The specification's description of one extension loop: walk the steps
1, 2, 3, 4 in order and count how many are taken before the first step that
leaves the board or hits a non-matching cell. -/
def specLineCount (board : List (List Int)) (player : Int) (board_size : Nat)
    (r c dr dc : Int) : Nat :=
  (([1, 2, 3, 4] : List Int).takeWhile fun i =>
    cellOk board player board_size (r + dr * i) (c + dc * i)).length

lemma countDir_eq_specLineCount (board : List (List Int)) (player : Int)
    (board_size : Nat) (r c dr dc : Int) :
    countDir board player board_size r c dr dc =
      specLineCount board player board_size r c dr dc := by
  unfold countDir specLineCount
  cases h1 : cellOk board player board_size (r + dr) (c + dc) <;>
  cases h2 : cellOk board player board_size (r + dr * 2) (c + dc * 2) <;>
  cases h3 : cellOk board player board_size (r + dr * 3) (c + dc * 3) <;>
  cases h4 : cellOk board player board_size (r + dr * 4) (c + dc * 4) <;>
  norm_num [countDirGo, List.takeWhile, h1, h2, h3, h4]

lemma countDir_eq_four (board : List (List Int)) (player : Int)
    (board_size : Nat) (r c dr dc : Int)
    (h : ∀ i ∈ ([1, 2, 3, 4] : List Int),
      cellOk board player board_size (r + dr * i) (c + dc * i) = true) :
    countDir board player board_size r c dr dc = 4 := by
  have h1 := h 1 (by norm_num)
  have h2 := h 2 (by norm_num)
  have h3 := h 3 (by norm_num)
  have h4 := h 4 (by norm_num)
  norm_num at h1
  norm_num [countDir, countDirGo, h1, h2, h3, h4]

/-- The eight signed rays along which four adjacent stones can sit:
each of the four direction vectors and its negation. -/
def rays : List (Int × Int) :=
  [(0, 1), (1, 0), (1, 1), (1, -1), (0, -1), (-1, 0), (-1, -1), (-1, 1)]

lemma check_win_of_ray (board : List (List Int)) (player : Int)
    (board_size : Nat) (r c dr dc : Int)
    (hdir : (dr, dc) ∈ directions ∨ (-dr, -dc) ∈ directions)
    (h : ∀ i ∈ ([1, 2, 3, 4] : List Int),
      cellOk board player board_size (r + dr * i) (c + dc * i) = true) :
    check_win board player r c board_size = true := by
  have h4 : countDir board player board_size r c dr dc = 4 :=
    countDir_eq_four board player board_size r c dr dc h
  rw [check_win, List.any_eq_true]
  rcases hdir with hd | hd
  · refine ⟨(dr, dc), hd, ?_⟩
    simp only [decide_eq_true_eq, h4]
    omega
  · refine ⟨(-dr, -dc), hd, ?_⟩
    simp only [decide_eq_true_eq, neg_neg, h4]
    omega

/-- The data-model invariant on cell values: every cell (in range or not,
out-of-range reads defaulting to 0) is empty or a stone of one of the two
players. -/
def CellsValid (b : List (List Int)) : Prop :=
  ∀ r c : Nat, getCell b r c = 0 ∨ getCell b r c = 1 ∨ getCell b r c = 2

/-! ### Claim theorems -/

/-- C2: the win detector counts contiguous same-player cells from the placed
cell, at most 4 steps forward and at most 4 steps backward, stopping at the
board edge or a non-matching cell, and reports a win iff some direction's
total (both counts plus 1 for the placed cell) is at least 5 — so exactly 5
and any overline above 5 both count. -/
theorem check_win_iff_direction_total_ge_five (board : List (List Int))
    (player : Int) (r c : Int) (board_size : Nat) :
    check_win board player r c board_size = true ↔
      ∃ d ∈ directions,
        5 ≤ 1 + specLineCount board player board_size r c d.1 d.2
          + specLineCount board player board_size r c (-d.1) (-d.2) := by
  rw [check_win, List.any_eq_true]
  simp only [decide_eq_true_eq, countDir_eq_specLineCount]

theorem check_win_iff_direction_total_ge_five_witness :
    check_win [[1, 1, 1, 1, 1], [0, 0, 0, 0, 0], [0, 0, 0, 0, 0],
        [0, 0, 0, 0, 0], [0, 0, 0, 0, 0]] 1 0 4 5 = true ↔
      ∃ d ∈ directions,
        5 ≤ 1 + specLineCount [[1, 1, 1, 1, 1], [0, 0, 0, 0, 0], [0, 0, 0, 0, 0],
            [0, 0, 0, 0, 0], [0, 0, 0, 0, 0]] 1 5 0 4 d.1 d.2
          + specLineCount [[1, 1, 1, 1, 1], [0, 0, 0, 0, 0], [0, 0, 0, 0, 0],
            [0, 0, 0, 0, 0], [0, 0, 0, 0, 0]] 1 5 0 4 (-d.1) (-d.2) :=
  check_win_iff_direction_total_ge_five
    [[1, 1, 1, 1, 1], [0, 0, 0, 0, 0], [0, 0, 0, 0, 0],
      [0, 0, 0, 0, 0], [0, 0, 0, 0, 0]] 1 0 4 5

/-- C3: a move onto an occupied in-range cell yields `CellOccupied` with
score -10.0 and returns the input state unchanged. -/
theorem occupied_cell_rejected (s : GameState) (row col : Int)
    (hrow : 0 ≤ row ∧ row < (s.board.length : Int))
    (hcol : 0 ≤ col ∧ col < (s.board.length : Int))
    (hocc : getCell s.board row.toNat col.toNat ≠ 0) :
    applyMove s row col = (Outcome.CellOccupied, -10, s) := by
  simp only [applyMove]
  rw [if_neg (not_not_intro ⟨hrow.1, hrow.2, hcol.1, hcol.2⟩), if_pos hocc]

theorem occupied_cell_rejected_witness :
    applyMove ⟨[[1, 0], [0, 0]], 2, false, none⟩ 0 0 =
      (Outcome.CellOccupied, -10, ⟨[[1, 0], [0, 0]], 2, false, none⟩) :=
  occupied_cell_rejected ⟨[[1, 0], [0, 0]], 2, false, none⟩ 0 0
    (by decide) (by decide) (by decide)

/-- C4: a move with row or col outside [0, N) — negative coordinates
included — yields `OutOfBounds` with score -10.0 and returns the input
state unchanged. -/
theorem out_of_bounds_rejected (s : GameState) (row col : Int)
    (h : ¬ (0 ≤ row ∧ row < (s.board.length : Int) ∧
      0 ≤ col ∧ col < (s.board.length : Int))) :
    applyMove s row col = (Outcome.OutOfBounds, -10, s) := by
  simp only [applyMove]
  rw [if_pos h]

theorem out_of_bounds_rejected_witness :
    applyMove ⟨[[0, 0], [0, 0]], 1, false, none⟩ (-1) 3 =
      (Outcome.OutOfBounds, -10, ⟨[[0, 0], [0, 0]], 1, false, none⟩) :=
  out_of_bounds_rejected ⟨[[0, 0], [0, 0]], 1, false, none⟩ (-1) 3 (by decide)

/-- C7: every call returns exactly one of the five outcomes, and the score
returned alongside is exactly the fixed mapping OutOfBounds/CellOccupied to
-10.0, Win to +100.0, Draw to 0.0, Continue to +1.0. -/
theorem outcome_exhaustive_and_scores_fixed (s : GameState) (row col : Int) :
    (applyMove s row col).2.1 = scoreOf (applyMove s row col).1 ∧
      ((applyMove s row col).1 = Outcome.OutOfBounds ∨
       (applyMove s row col).1 = Outcome.CellOccupied ∨
       (applyMove s row col).1 = Outcome.Win ∨
       (applyMove s row col).1 = Outcome.Draw ∨
       (applyMove s row col).1 = Outcome.Continue) := by
  constructor
  · simp only [applyMove]
    split_ifs <;> rfl
  · cases (applyMove s row col).1 <;> simp

theorem outcome_exhaustive_and_scores_fixed_witness :
    (applyMove ⟨[[0, 0], [0, 0]], 1, false, none⟩ 1 1).2.1 =
      scoreOf (applyMove ⟨[[0, 0], [0, 0]], 1, false, none⟩ 1 1).1 ∧
      ((applyMove ⟨[[0, 0], [0, 0]], 1, false, none⟩ 1 1).1 = Outcome.OutOfBounds ∨
       (applyMove ⟨[[0, 0], [0, 0]], 1, false, none⟩ 1 1).1 = Outcome.CellOccupied ∨
       (applyMove ⟨[[0, 0], [0, 0]], 1, false, none⟩ 1 1).1 = Outcome.Win ∨
       (applyMove ⟨[[0, 0], [0, 0]], 1, false, none⟩ 1 1).1 = Outcome.Draw ∨
       (applyMove ⟨[[0, 0], [0, 0]], 1, false, none⟩ 1 1).1 = Outcome.Continue) :=
  outcome_exhaustive_and_scores_fixed ⟨[[0, 0], [0, 0]], 1, false, none⟩ 1 1

/-- C5: after a `Continue` outcome the current player is flipped (1 and 2
swapped, so it differs from the input) and `game_over` is false; after `Win`
or `Draw` the current player is unchanged and `game_over` is true. -/
theorem turn_alternation (s : GameState) (row col : Int) :
    ((applyMove s row col).1 = Outcome.Continue →
      (applyMove s row col).2.2.game_over = false ∧
      (applyMove s row col).2.2.current_player ≠ s.current_player ∧
      (s.current_player = 1 → (applyMove s row col).2.2.current_player = 2) ∧
      (s.current_player = 2 → (applyMove s row col).2.2.current_player = 1)) ∧
    (((applyMove s row col).1 = Outcome.Win ∨
        (applyMove s row col).1 = Outcome.Draw) →
      (applyMove s row col).2.2.current_player = s.current_player ∧
      (applyMove s row col).2.2.game_over = true) := by
  simp only [applyMove]
  split_ifs <;> constructor <;> intro h <;> (simp_all; try omega)

theorem turn_alternation_witness :
    ((applyMove ⟨[[0, 0], [0, 0]], 1, false, none⟩ 0 0).2.2.game_over = false ∧
      (applyMove ⟨[[0, 0], [0, 0]], 1, false, none⟩ 0 0).2.2.current_player ≠
        (⟨[[0, 0], [0, 0]], 1, false, none⟩ : GameState).current_player ∧
      ((⟨[[0, 0], [0, 0]], 1, false, none⟩ : GameState).current_player = 1 →
        (applyMove ⟨[[0, 0], [0, 0]], 1, false, none⟩ 0 0).2.2.current_player = 2) ∧
      ((⟨[[0, 0], [0, 0]], 1, false, none⟩ : GameState).current_player = 2 →
        (applyMove ⟨[[0, 0], [0, 0]], 1, false, none⟩ 0 0).2.2.current_player = 1)) ∧
    ((applyMove ⟨[[0]], 1, false, none⟩ 0 0).2.2.current_player =
        (⟨[[0]], 1, false, none⟩ : GameState).current_player ∧
      (applyMove ⟨[[0]], 1, false, none⟩ 0 0).2.2.game_over = true) :=
  ⟨(turn_alternation ⟨[[0, 0], [0, 0]], 1, false, none⟩ 0 0).1 (by decide),
   (turn_alternation ⟨[[0]], 1, false, none⟩ 0 0).2 (Or.inr (by decide))⟩

/-- C6: the draw check runs only after the win check reported no win: if the
updated board wins, the outcome is `Win` (even when the board is also full);
if it does not win and the updated board has no empty cell, the outcome is
`Draw` with score 0.0, `game_over` true and `winner` none. -/
theorem draw_only_after_no_win (s : GameState) (row col : Int)
    (hrow : 0 ≤ row ∧ row < (s.board.length : Int))
    (hcol : 0 ≤ col ∧ col < (s.board.length : Int))
    (hempty : getCell s.board row.toNat col.toNat = 0) :
    (check_win (setCell s.board row.toNat col.toNat s.current_player)
        s.current_player row col s.board.length = true →
      (applyMove s row col).1 = Outcome.Win) ∧
    (check_win (setCell s.board row.toNat col.toNat s.current_player)
        s.current_player row col s.board.length = false →
      isFull (setCell s.board row.toNat col.toNat s.current_player) = true →
      applyMove s row col =
        (Outcome.Draw, 0,
          ⟨setCell s.board row.toNat col.toNat s.current_player,
            s.current_player, true, none⟩)) := by
  constructor
  · intro hw
    simp only [applyMove]
    rw [if_neg (not_not_intro ⟨hrow.1, hrow.2, hcol.1, hcol.2⟩),
      if_neg (not_not_intro hempty), if_pos hw]
  · intro hw hf
    simp only [applyMove]
    rw [if_neg (not_not_intro ⟨hrow.1, hrow.2, hcol.1, hcol.2⟩),
      if_neg (not_not_intro hempty), if_neg (by simp [hw]), if_pos hf]

theorem draw_only_after_no_win_witness :
    (applyMove ⟨[[1, 1, 1, 1, 0], [0, 0, 0, 0, 0], [0, 0, 0, 0, 0],
        [0, 0, 0, 0, 0], [0, 0, 0, 0, 0]], 1, false, none⟩ 0 4).1 =
      Outcome.Win ∧
    applyMove ⟨[[0]], 1, false, none⟩ 0 0 =
      (Outcome.Draw, 0, ⟨setCell [[0]] 0 0 1, 1, true, none⟩) :=
  ⟨(draw_only_after_no_win
      ⟨[[1, 1, 1, 1, 0], [0, 0, 0, 0, 0], [0, 0, 0, 0, 0],
        [0, 0, 0, 0, 0], [0, 0, 0, 0, 0]], 1, false, none⟩ 0 4
      (by decide) (by decide) (by decide)).1 (by decide),
   (draw_only_after_no_win ⟨[[0]], 1, false, none⟩ 0 0
      (by decide) (by decide) (by decide)).2 (by decide) (by decide)⟩

/-- C8: a legal move (in range, empty target) produces a board that is the
input board updated at exactly (row, col): that cell now holds the current
player (it held Empty before, by hypothesis), and every other cell is
unchanged. -/
theorem legal_move_frame (s : GameState) (row col : Int)
    (hWF : SquareBoard s.board)
    (hrow : 0 ≤ row ∧ row < (s.board.length : Int))
    (hcol : 0 ≤ col ∧ col < (s.board.length : Int))
    (hempty : getCell s.board row.toNat col.toNat = 0) :
    (applyMove s row col).2.2.board =
      setCell s.board row.toNat col.toNat s.current_player ∧
    getCell (applyMove s row col).2.2.board row.toNat col.toNat =
      s.current_player ∧
    (∀ r' c' : Nat, ¬ (r' = row.toNat ∧ c' = col.toNat) →
      getCell (applyMove s row col).2.2.board r' c' = getCell s.board r' c') := by
  have hb : (applyMove s row col).2.2.board =
      setCell s.board row.toNat col.toNat s.current_player := by
    simp only [applyMove]
    rw [if_neg (not_not_intro ⟨hrow.1, hrow.2, hcol.1, hcol.2⟩),
      if_neg (not_not_intro hempty)]
    split_ifs <;> rfl
  have hrn : row.toNat < s.board.length := by omega
  have hcn : col.toNat < s.board.length := by omega
  refine ⟨hb, ?_, ?_⟩
  · rw [hb]
    exact getCell_setCell_self s.board row.toNat col.toNat s.current_player hWF hrn hcn
  · intro r' c' h
    rw [hb]
    exact getCell_setCell_ne s.board row.toNat col.toNat r' c' s.current_player
      (fun hh => h ⟨hh.1.symm, hh.2.symm⟩)

theorem legal_move_frame_witness :
    (applyMove ⟨[[0, 0], [0, 2]], 1, false, none⟩ 0 0).2.2.board =
      setCell [[0, 0], [0, 2]] 0 0 1 ∧
    getCell (applyMove ⟨[[0, 0], [0, 2]], 1, false, none⟩ 0 0).2.2.board 0 0 = 1 ∧
    (∀ r' c' : Nat, ¬ (r' = 0 ∧ c' = 0) →
      getCell (applyMove ⟨[[0, 0], [0, 2]], 1, false, none⟩ 0 0).2.2.board r' c' =
        getCell [[0, 0], [0, 2]] r' c') :=
  legal_move_frame ⟨[[0, 0], [0, 2]], 1, false, none⟩ 0 0
    (by decide) (by decide) (by decide) (by decide)

/-- C9: applyMove preserves the data-model invariant: if every board cell is
Empty, PlayerOne or PlayerTwo and the current player is PlayerOne or
PlayerTwo, the same holds of the returned state, for all coordinates. -/
theorem invariant_preserved (s : GameState) (row col : Int)
    (hcells : CellsValid s.board)
    (hp : s.current_player = 1 ∨ s.current_player = 2) :
    CellsValid (applyMove s row col).2.2.board ∧
      ((applyMove s row col).2.2.current_player = 1 ∨
       (applyMove s row col).2.2.current_player = 2) := by
  have hset : CellsValid (setCell s.board row.toNat col.toNat s.current_player) := by
    intro r' c'
    rcases getCell_setCell_cases s.board row.toNat col.toNat r' c'
        s.current_player with h | h
    · rw [h]; exact hcells r' c'
    · rw [h]; rcases hp with hp | hp <;> simp [hp]
  simp only [applyMove]
  split_ifs
  all_goals first
    | exact ⟨hcells, hp⟩
    | exact ⟨hset, hp⟩
    | exact ⟨hset, by rcases hp with hp | hp <;> norm_num [hp]⟩

theorem invariant_preserved_witness :
    CellsValid (applyMove ⟨[[0]], 1, false, none⟩ 0 0).2.2.board ∧
      ((applyMove ⟨[[0]], 1, false, none⟩ 0 0).2.2.current_player = 1 ∨
       (applyMove ⟨[[0]], 1, false, none⟩ 0 0).2.2.current_player = 2) :=
  invariant_preserved ⟨[[0]], 1, false, none⟩ 0 0
    (by
      intro r c
      left
      unfold getCell
      rcases r with _ | r
      · rcases c with _ | c <;> simp
      · simp)
    (Or.inl rfl)

/-- C1: placing a fifth colinear same-player stone adjacent to four existing
same-player stones along any of the four orientations (in either sense)
yields outcome `Win` with score +100.0, and the new state has the updated
board, `game_over` true and `winner` the current player. -/
theorem fifth_colinear_stone_wins (s : GameState) (row col : Int)
    (_hWF : SquareBoard s.board)
    (hrow : 0 ≤ row ∧ row < (s.board.length : Int))
    (hcol : 0 ≤ col ∧ col < (s.board.length : Int))
    (hempty : getCell s.board row.toNat col.toNat = 0)
    (hp : s.current_player ≠ 0)
    (hray : ∃ d ∈ rays, ∀ i ∈ ([1, 2, 3, 4] : List Int),
      0 ≤ row + d.1 * i ∧ row + d.1 * i < (s.board.length : Int) ∧
      0 ≤ col + d.2 * i ∧ col + d.2 * i < (s.board.length : Int) ∧
      getCell s.board (row + d.1 * i).toNat (col + d.2 * i).toNat =
        s.current_player) :
    applyMove s row col =
      (Outcome.Win, 100,
        ⟨setCell s.board row.toNat col.toNat s.current_player,
          s.current_player, true, some s.current_player⟩) := by
  obtain ⟨d, hd, hcells⟩ := hray
  have hwin : check_win (setCell s.board row.toNat col.toNat s.current_player)
      s.current_player row col s.board.length = true := by
    have hdirs : ∀ e ∈ rays,
        (e.1, e.2) ∈ directions ∨ (-e.1, -e.2) ∈ directions := by decide
    refine check_win_of_ray _ _ _ row col d.1 d.2 (hdirs d hd) ?_
    intro i hi
    obtain ⟨h1, h2, h3, h4, hv⟩ := hcells i hi
    unfold cellOk
    refine decide_eq_true ⟨h1, h2, h3, h4, ?_⟩
    rw [getCell_setCell_ne]
    · exact hv
    · rintro ⟨he1, he2⟩
      rw [← he1, ← he2] at hv
      exact hp (hv.symm.trans hempty)
  simp only [applyMove]
  rw [if_neg (not_not_intro ⟨hrow.1, hrow.2, hcol.1, hcol.2⟩),
    if_neg (not_not_intro hempty), if_pos hwin]

theorem fifth_colinear_stone_wins_witness :
    applyMove ⟨[[1, 1, 1, 1, 0], [0, 0, 0, 0, 0], [0, 0, 0, 0, 0],
        [0, 0, 0, 0, 0], [0, 0, 0, 0, 0]], 1, false, none⟩ 0 4 =
      (Outcome.Win, 100,
        ⟨setCell [[1, 1, 1, 1, 0], [0, 0, 0, 0, 0], [0, 0, 0, 0, 0],
            [0, 0, 0, 0, 0], [0, 0, 0, 0, 0]] 0 4 1,
          1, true, some 1⟩) :=
  fifth_colinear_stone_wins
    ⟨[[1, 1, 1, 1, 0], [0, 0, 0, 0, 0], [0, 0, 0, 0, 0],
        [0, 0, 0, 0, 0], [0, 0, 0, 0, 0]], 1, false, none⟩ 0 4
    (by decide) (by decide) (by decide) (by decide) (by decide)
    ⟨(0, -1), by decide, by decide⟩

/-- C10: the public interface extracts coordinates with a pattern that only
accepts a parenthesised pair of non-negative decimal digit groups; whenever
extraction fails the call scores -1.0 and leaves the state unchanged, and on
the negative-coordinate response "(-1,3)" extraction does fail — so a
negative coordinate never reaches the bounds check through the parser. -/
theorem negative_coordinates_not_extracted :
    (∀ response : List Char, ∀ s : GameState,
      searchCoords response = none → verify_score response s = (-1, s)) ∧
    searchCoords ("(-1,3)".data) = none := by
  constructor
  · intro response s h
    unfold verify_score
    rw [h]
  · decide

theorem negative_coordinates_not_extracted_witness :
    verify_score ("(-1,3)".data) ⟨[[0]], 2, false, none⟩ =
      (-1, ⟨[[0]], 2, false, none⟩) :=
  negative_coordinates_not_extracted.1 ("(-1,3)".data) ⟨[[0]], 2, false, none⟩
    (by decide)

end Gomoku
